import Mathlib

/-
Shallow embedding of the Omega metadata registries from
`components/omega/src/infra/MetaData.h` and `MetaData.cpp` (E3SM, Omega
component), together with proofs about the registry operations.

Modelling conventions:
* `std::map<std::string, T>` is modelled as an association list
  `List (String × T)` ordered by key.  `mapFind` models `find` /
  `operator[]` reads, `mapInsert` models `operator[]=` insertion, and
  `mapErase` models `erase(key)` returning the number of erased elements
  (0 or 1), exactly as `std::map::erase` does.
* `std::set<std::string>` is modelled as an ordered `List String` with
  `setInsert` / `setContains`.
* `std::any` entry values are modelled by the closed sum `MetaValue` over
  the six value types the code stores (I4, I8, R4, R8, bool, std::string).
  `std::any_cast<T>` succeeds exactly when the stored dynamic type is `T`
  (no numeric conversion); on mismatch it throws `std::bad_any_cast`.
  `getEntry`'s result is therefore modelled by `GetResult`, whose
  `throwBadAnyCast` constructor marks the executions in which the C++
  function exits via an exception instead of returning an error code.
* The floating point types R4/R8 are only ever stored and retrieved by
  this code (never computed with), so they are modelled by their bit
  patterns.
* `shared_ptr` handles into a registry are modelled by the value stored in
  the registry; instance methods that mutate a record through the handle
  return the updated record.
-/

set_option autoImplicit false

namespace OmegaMeta

/-- The Omega I4 type (32-bit int); no arithmetic that could overflow is
performed on these values in the metadata code. -/
abbrev I4 := Int

/-- The Omega I8 type (64-bit int). -/
abbrev I8 := Int

/-- The Omega R4 type (32-bit float), as an opaque bit pattern: the metadata
code only stores and copies these values. -/
structure R4 where
  bits : Nat
deriving DecidableEq, Repr

/-- The Omega R8 type (64-bit float), as an opaque bit pattern. -/
structure R8 where
  bits : Nat
deriving DecidableEq, Repr

/-- A dynamically typed metadata value: the closed set of types stored in
the `std::any` of `MetaData::MetaMap` (see the supported types listed in the
developer guide and the six `getEntry` overloads). -/
inductive MetaValue where
  | i4 : I4 → MetaValue
  | i8 : I8 → MetaValue
  | r4 : R4 → MetaValue
  | r8 : R8 → MetaValue
  | bool : Bool → MetaValue
  | str : String → MetaValue
deriving DecidableEq, Repr

/-- The six value kinds, one per `getEntry` overload target type. -/
inductive MetaKind where
  | i4
  | i8
  | r4
  | r8
  | bool
  | str
deriving DecidableEq, Repr

/-- The dynamic kind (C++ `typeid`) of a stored value. -/
def MetaValue.kind : MetaValue → MetaKind
  | .i4 _ => .i4
  | .i8 _ => .i8
  | .r4 _ => .r4
  | .r8 _ => .r8
  | .bool _ => .bool
  | .str _ => .str

/-! ### The `std::map` model -/

/-- `std::map::find`: the value stored under key `k`, if present. -/
def mapFind {α : Type} : List (String × α) → String → Option α
  | [], _ => none
  | p :: t, k => if p.1 = k then some p.2 else mapFind t k

/-- `std::map` insertion through `operator[]=`: keys are unique, the list is
kept ordered by key. -/
def mapInsert {α : Type} : List (String × α) → String → α → List (String × α)
  | [], k, v => [(k, v)]
  | p :: t, k, v =>
    if k < p.1 then (k, v) :: p :: t
    else if k = p.1 then (k, v) :: t
    else p :: mapInsert t k v

/-- `std::map::erase(key)`: the number of erased elements (0 or 1) together
with the remaining map. -/
def mapErase {α : Type} : List (String × α) → String → Nat × List (String × α)
  | [], _ => (0, [])
  | p :: t, k =>
    if p.1 = k then (1, t)
    else
      let r := mapErase t k
      (r.1, p :: r.2)

/-- `std::set` insertion: ordered, duplicate insertion is a no-op. -/
def setInsert : List String → String → List String
  | [], x => [x]
  | y :: t, x =>
    if x < y then x :: y :: t
    else if x = y then y :: t
    else y :: setInsert t x

/-- `std::set::find` membership test. -/
def setContains : List String → String → Bool
  | [], _ => false
  | y :: t, x => if y = x then true else setContains t x

theorem isSome_false_iff {α : Type} (o : Option α) : o.isSome = false ↔ o = none := by
  cases o <;> simp

theorem mapFind_mapInsert_self {α : Type} (m : List (String × α)) (k : String) (v : α) :
    mapFind (mapInsert m k v) k = some v := by
  induction m with
  | nil => simp [mapInsert, mapFind]
  | cons p t ih =>
    by_cases h1 : k < p.1
    · simp [mapInsert, mapFind, h1]
    · by_cases h2 : k = p.1
      · simp [mapInsert, mapFind, h1, h2]
      · have h3 : ¬(p.1 = k) := fun h => h2 h.symm
        simp [mapInsert, mapFind, h1, h2, h3, ih]

theorem mapFind_mapInsert_ne {α : Type} (m : List (String × α)) (k q : String) (v : α)
    (h : q ≠ k) : mapFind (mapInsert m k v) q = mapFind m q := by
  have hkq : ¬(k = q) := fun hh => h hh.symm
  induction m with
  | nil => simp [mapInsert, mapFind, hkq]
  | cons p t ih =>
    by_cases h1 : k < p.1
    · simp [mapInsert, mapFind, h1, hkq]
    · by_cases h2 : k = p.1
      · subst h2
        simp [mapInsert, mapFind, h1, hkq]
      · simp only [mapInsert, if_neg h1, if_neg h2]
        by_cases h4 : p.1 = q
        · simp [mapFind, h4]
        · simp [mapFind, h4, ih]

theorem length_mapInsert_fresh {α : Type} (m : List (String × α)) (k : String) (v : α)
    (h : mapFind m k = none) : (mapInsert m k v).length = m.length + 1 := by
  induction m with
  | nil => simp [mapInsert]
  | cons p t ih =>
    have h1 : ¬(p.1 = k) := by
      intro hh
      simp [mapFind, hh] at h
    have h2 : mapFind t k = none := by
      simpa [mapFind, h1] using h
    by_cases h3 : k < p.1
    · simp [mapInsert, h3]
    · have h4 : ¬(k = p.1) := fun hh => h1 hh.symm
      simp [mapInsert, h3, h4, ih h2]

theorem mapErase_mapInsert_fresh {α : Type} (m : List (String × α)) (k : String) (v : α)
    (h : mapFind m k = none) : mapErase (mapInsert m k v) k = (1, m) := by
  induction m with
  | nil => simp [mapInsert, mapErase]
  | cons p t ih =>
    have h1 : ¬(p.1 = k) := by
      intro hh
      simp [mapFind, hh] at h
    have h2 : mapFind t k = none := by
      simpa [mapFind, h1] using h
    by_cases h3 : k < p.1
    · simp [mapInsert, mapErase, h3]
    · have h4 : ¬(k = p.1) := fun hh => h1 hh.symm
      simp [mapInsert, mapErase, h3, h4, h1, ih h2]

theorem setContains_setInsert_self (s : List String) (x : String) :
    setContains (setInsert s x) x = true := by
  induction s with
  | nil => simp [setInsert, setContains]
  | cons y t ih =>
    by_cases h1 : x < y
    · simp [setInsert, setContains, h1]
    · by_cases h2 : x = y
      · simp [setInsert, setContains, h1, h2]
      · have h3 : ¬(y = x) := fun h => h2 h.symm
        simp [setInsert, setContains, h1, h2, h3, ih]

/-! ### The MetaDim class

Embeds the dimension registry: `MetaDim` instances with the static map
`AllDims`, passed explicitly since the embedding has no global state. -/

/-- A dimension: name and global length (0 denotes unlimited). -/
structure MetaDim where
  DimName : String
  Length : I4
deriving DecidableEq, Repr, Inhabited

/-- The static member `MetaDim::AllDims`. -/
abbrev DimReg := List (String × MetaDim)

namespace MetaDim

/-- `MetaDim::has`: `AllDims.find(Name) != AllDims.end()`. -/
def has (allDims : DimReg) (name : String) : Bool :=
  (mapFind allDims name).isSome

/-- `MetaDim::get`: logs and returns `nullptr` when the name is absent,
otherwise `AllDims[Name]`. -/
def get (allDims : DimReg) (name : String) : Option MetaDim :=
  if !(has allDims name) then none else mapFind allDims name

/-- `MetaDim::create`: when the name exists, returns the stored dimension if
its length matches and `nullptr` on a length conflict (registry untouched in
both cases); otherwise fills a new dimension and inserts it. -/
def create (allDims : DimReg) (name : String) (length : I4) :
    Option MetaDim × DimReg :=
  match mapFind allDims name with
  | some dim =>
    if dim.Length ≠ length then (none, allDims) else (some dim, allDims)
  | none =>
    let dim : MetaDim := { DimName := name, Length := length }
    (some dim, mapInsert allDims name dim)

/-- `MetaDim::destroy`: `-1` when the name is absent (or on an erase
miscount, dead code for a well-formed map), else erases and returns 0. -/
def destroy (allDims : DimReg) (name : String) : Int × DimReg :=
  if !(has allDims name) then (-1, allDims)
  else
    let r := mapErase allDims name
    if r.1 ≠ 1 then (-1, r.2) else (0, r.2)

/-- `MetaDim::getLength` member function. -/
def getLength (dim : MetaDim) : I4 :=
  dim.Length

/-- `MetaDim::getDimLength`: length by name, `-1` when undefined. -/
def getDimLength (allDims : DimReg) (name : String) : I4 :=
  match mapFind allDims name with
  | some dim => dim.Length
  | none => -1

/-- `MetaDim::getNumDefinedDims`: `AllDims.size()`. -/
def getNumDefinedDims (allDims : DimReg) : Int :=
  allDims.length

/-- `MetaDim::clear`: `AllDims.clear()`. -/
def clear (_allDims : DimReg) : DimReg :=
  []

end MetaDim

/-! ### The MetaData class -/

/-- A field metadata record: field name, the `(name, value)` entry map, the
number of dimensions and the dimension names. `MetaData::create(Name)` builds
it with `std::make_shared<MetaData>()`, which value-initializes every member
(empty map, `NDims == 0`, empty vector) before `FieldName` is set. -/
structure MetaData where
  FieldName : String
  MetaMap : List (String × MetaValue)
  NDims : Int
  DimNames : List String
deriving DecidableEq, Repr, Inhabited

/-- The static member `MetaData::AllFields`. -/
abbrev FieldReg := List (String × MetaData)

/-- Result channel of a `getEntry` overload: `ok` is error code 0 with the
output argument set, `errNotFound` is error code `-1` (entry absent), and
`throwBadAnyCast` marks the executions in which `std::any_cast` throws
`std::bad_any_cast` out of `getEntry` because the stored dynamic type is not
the requested one. -/
inductive GetResult (α : Type) where
  | ok : α → GetResult α
  | errNotFound : GetResult α
  | throwBadAnyCast : GetResult α
deriving DecidableEq, Repr

/-- Functorial action on the `ok` payload. -/
def GetResult.map {α β : Type} (f : α → β) : GetResult α → GetResult β
  | .ok v => .ok (f v)
  | .errNotFound => .errNotFound
  | .throwBadAnyCast => .throwBadAnyCast

/-- Whether the modelled execution exits by throwing an exception. -/
def GetResult.throws {α : Type} : GetResult α → Bool
  | .throwBadAnyCast => true
  | _ => false

/-- `std::any_cast<I4>`: succeeds exactly on a stored I4. -/
def anyCastI4 : MetaValue → Option I4
  | .i4 v => some v
  | _ => none

/-- `std::any_cast<I8>`: succeeds exactly on a stored I8. -/
def anyCastI8 : MetaValue → Option I8
  | .i8 v => some v
  | _ => none

/-- `std::any_cast<R4>`: succeeds exactly on a stored R4. -/
def anyCastR4 : MetaValue → Option R4
  | .r4 v => some v
  | _ => none

/-- `std::any_cast<R8>`: succeeds exactly on a stored R8. -/
def anyCastR8 : MetaValue → Option R8
  | .r8 v => some v
  | _ => none

/-- `std::any_cast<bool>`: succeeds exactly on a stored bool. -/
def anyCastBool : MetaValue → Option Bool
  | .bool v => some v
  | _ => none

/-- `std::any_cast<std::string>`: succeeds exactly on a stored string. -/
def anyCastStr : MetaValue → Option String
  | .str v => some v
  | _ => none

namespace MetaData

/-- `MetaData::has`: `AllFields.find(Name) != AllFields.end()`. -/
def has (allFields : FieldReg) (name : String) : Bool :=
  (mapFind allFields name).isSome

/-- `MetaData::hasEntry`: `MetaMap.find(Name) != MetaMap.end()`. -/
def hasEntry (md : MetaData) (name : String) : Bool :=
  (mapFind md.MetaMap name).isSome

/-- `MetaData::addEntry`: `-1` when the entry name is already present (no
overwrite), else inserts the `(name, value)` pair and returns 0. -/
def addEntry (md : MetaData) (name : String) (value : MetaValue) :
    Int × MetaData :=
  if md.hasEntry name then (-1, md)
  else (0, { md with MetaMap := mapInsert md.MetaMap name value })

/-- `MetaData::removeEntry`: `-1` when the entry is absent, `-2` on an erase
miscount (dead code for a well-formed map), else erases and returns 0. -/
def removeEntry (md : MetaData) (name : String) : Int × MetaData :=
  if !(md.hasEntry name) then (-1, md)
  else
    let r := mapErase md.MetaMap name
    if r.1 ≠ 1 then (-2, { md with MetaMap := r.2 })
    else (0, { md with MetaMap := r.2 })

/-- The bare `MetaData::create(Name)`: `nullptr` when the field exists,
otherwise registers a value-initialized record carrying the name. -/
def create (allFields : FieldReg) (name : String) :
    Option MetaData × FieldReg :=
  if has allFields name then (none, allFields)
  else
    let data : MetaData :=
      { FieldName := name, MetaMap := [], NDims := 0, DimNames := [] }
    (some data, mapInsert allFields name data)

/-- The full-form `MetaData::create` for array fields: bare create, then on
success set `NDims`/`DimNames` (no check that `Dimensions` has `NumDims`
elements) and add the six canonical entries.  Mutations through the returned
`shared_ptr` are reflected in the registry, modelled by writing the final
record back. -/
def createFull (allFields : FieldReg) (name description units stdName : String)
    (validMin validMax fillValue : MetaValue) (numDims : Int)
    (dimensions : List String) : Option MetaData × FieldReg :=
  match create allFields name with
  | (some d0, af) =>
    let d1 := { d0 with NDims := numDims, DimNames := dimensions }
    let d2 := (d1.addEntry "Description" (MetaValue.str description)).2
    let d3 := (d2.addEntry "Units" (MetaValue.str units)).2
    let d4 := (d3.addEntry "StdName" (MetaValue.str stdName)).2
    let d5 := (d4.addEntry "ValidMin" validMin).2
    let d6 := (d5.addEntry "ValidMax" validMax).2
    let d7 := (d6.addEntry "FillValue" fillValue).2
    (some d7, mapInsert af name d7)
  | (none, af) => (none, af)

/-- The batch-pairs `MetaData::create`: bare create, then on success
`NDims = 0` and each input pair added through `addEntry` in order. -/
def createPairs (allFields : FieldReg) (name : String)
    (metaPairs : List (String × MetaValue)) : Option MetaData × FieldReg :=
  match create allFields name with
  | (some d0, af) =>
    let d1 := { d0 with NDims := 0 }
    let d2 := metaPairs.foldl (fun d p => (d.addEntry p.1 p.2).2) d1
    (some d2, mapInsert af name d2)
  | (none, af) => (none, af)

/-- `MetaData::destroy`: `-1` when the field is absent, `-2` on an erase
miscount (dead code for a well-formed map), else erases and returns 0. -/
def destroy (allFields : FieldReg) (name : String) : Int × FieldReg :=
  if !(has allFields name) then (-1, allFields)
  else
    let r := mapErase allFields name
    if r.1 ≠ 1 then (-2, r.2) else (0, r.2)

/-- `MetaData::clear`: `AllFields.clear()`. -/
def clear (_allFields : FieldReg) : FieldReg :=
  []

/-- `MetaData::get`: logs and returns `nullptr` when the field is absent,
otherwise `AllFields[Name]`. -/
def get (allFields : FieldReg) (name : String) : Option MetaData :=
  if !(has allFields name) then none else mapFind allFields name

/-- `MetaData::getNumDims`. -/
def getNumDims (md : MetaData) : Int :=
  md.NDims

/-- The copy loop of `MetaData::getDimNames`:
`for (IDim = 0; IDim < NDims; ++IDim) Dimensions[IDim] = DimNames[IDim]`.
Reading `DimNames[IDim]` past the end of the vector is undefined behavior in
the source, marked `none` here. -/
def readNames (dimNames : List String) : Nat → Option (List String)
  | 0 => some []
  | Nat.succ m =>
    match readNames dimNames m, dimNames[m]? with
    | some acc, some s => some (acc ++ [s])
    | _, _ => none

/-- `MetaData::getDimNames`: for `NDims > 0` copies
`DimNames[0..NDims-1]` into the output vector, else clears it; the returned
error code is always 0.  `some names` models the defined executions with the
output vector set to `names`; `none` marks the out-of-bounds vector read. -/
def getDimNames (md : MetaData) : Option (List String) :=
  if md.NDims > 0 then readNames md.DimNames md.NDims.toNat
  else some []

/-- Common shape of the six `getEntry` overloads, which differ only in the
`std::any_cast` target type: error code `-1` when the entry is absent, else
the cast either returns the value (error code 0) or throws. -/
def getEntryWith {α : Type} (cast : MetaValue → Option α) (md : MetaData)
    (name : String) : GetResult α :=
  match mapFind md.MetaMap name with
  | none => GetResult.errNotFound
  | some v =>
    match cast v with
    | some x => GetResult.ok x
    | none => GetResult.throwBadAnyCast

/-- The I4 overload of `MetaData::getEntry`. -/
def getEntryI4 (md : MetaData) (name : String) : GetResult I4 :=
  getEntryWith anyCastI4 md name

/-- The I8 overload of `MetaData::getEntry`. -/
def getEntryI8 (md : MetaData) (name : String) : GetResult I8 :=
  getEntryWith anyCastI8 md name

/-- The R4 overload of `MetaData::getEntry`. -/
def getEntryR4 (md : MetaData) (name : String) : GetResult R4 :=
  getEntryWith anyCastR4 md name

/-- The R8 overload of `MetaData::getEntry`. -/
def getEntryR8 (md : MetaData) (name : String) : GetResult R8 :=
  getEntryWith anyCastR8 md name

/-- The bool overload of `MetaData::getEntry`. -/
def getEntryBool (md : MetaData) (name : String) : GetResult Bool :=
  getEntryWith anyCastBool md name

/-- The string overload of `MetaData::getEntry`. -/
def getEntryStr (md : MetaData) (name : String) : GetResult String :=
  getEntryWith anyCastStr md name

/-- Dispatch of the overload set by requested kind, with the retrieved value
re-wrapped so results of different kinds can be compared uniformly. -/
def getEntryKind (md : MetaData) (name : String) : MetaKind → GetResult MetaValue
  | .i4 => (md.getEntryI4 name).map MetaValue.i4
  | .i8 => (md.getEntryI8 name).map MetaValue.i8
  | .r4 => (md.getEntryR4 name).map MetaValue.r4
  | .r8 => (md.getEntryR8 name).map MetaValue.r8
  | .bool => (md.getEntryBool name).map MetaValue.bool
  | .str => (md.getEntryStr name).map MetaValue.str

/-- `MetaData::getAllEntries`: the entry map itself. -/
def getAllEntries (md : MetaData) : List (String × MetaValue) :=
  md.MetaMap

end MetaData

/-! ### The MetaGroup class -/

/-- A metadata group: group name and the `std::set` of member field names. -/
structure MetaGroup where
  GrpName : String
  Fields : List String
deriving DecidableEq, Repr, Inhabited

/-- The static member `MetaGroup::AllGroups`. -/
abbrev GroupReg := List (String × MetaGroup)

/-- Result of `MetaGroup::getField`.  Both error constructors are returned
as `nullptr` by the C++ code; they are distinguished by which diagnostic the
code emits: `errNotInGroup` is `getField`'s own "field not in group" branch,
`errFieldNotFound` is `MetaData::get` failing to find the record of a field
that is a group member. -/
inductive GetFieldResult where
  | ok : MetaData → GetFieldResult
  | errNotInGroup : GetFieldResult
  | errFieldNotFound : GetFieldResult
deriving DecidableEq, Repr

namespace MetaGroup

/-- `MetaGroup::has`: `AllGroups.find(Name) != AllGroups.end()`. -/
def has (allGroups : GroupReg) (name : String) : Bool :=
  (mapFind allGroups name).isSome

/-- `MetaGroup::create`: `nullptr` when the group exists, else registers an
empty group with the given name. -/
def create (allGroups : GroupReg) (name : String) :
    Option MetaGroup × GroupReg :=
  if has allGroups name then (none, allGroups)
  else
    let group : MetaGroup := { GrpName := name, Fields := [] }
    (some group, mapInsert allGroups name group)

/-- `MetaGroup::destroy`: `-1` when the group is absent, `-2` on an erase
miscount (dead code for a well-formed map), else erases and returns 0. -/
def destroy (allGroups : GroupReg) (name : String) : Int × GroupReg :=
  if !(has allGroups name) then (-1, allGroups)
  else
    let r := mapErase allGroups name
    if r.1 ≠ 1 then (-2, r.2) else (0, r.2)

/-- `MetaGroup::get`: logs and returns `nullptr` when the group is absent,
otherwise `AllGroups[Name]`. -/
def get (allGroups : GroupReg) (name : String) : Option MetaGroup :=
  if !(has allGroups name) then none else mapFind allGroups name

/-- `MetaGroup::hasField`: membership of the name in this group's set. -/
def hasField (g : MetaGroup) (fieldName : String) : Bool :=
  setContains g.Fields fieldName

/-- `MetaGroup::addField`: returns `-2` when the field metadata is not
defined in `MetaData::AllFields`, but inserts the name into the group's set
unconditionally (the insert line sits after the check, outside its else). -/
def addField (g : MetaGroup) (allFields : FieldReg) (fieldName : String) :
    Int × MetaGroup :=
  let retVal : Int := if !(MetaData.has allFields fieldName) then -2 else 0
  (retVal, { g with Fields := setInsert g.Fields fieldName })

/-- `MetaGroup::getField`: its own error branch when the name is not in the
group's set, else delegates to `MetaData::get`, which itself returns
`nullptr` when the record no longer exists. -/
def getField (g : MetaGroup) (allFields : FieldReg) (fieldName : String) :
    GetFieldResult :=
  if !(g.hasField fieldName) then GetFieldResult.errNotInGroup
  else
    match MetaData.get allFields fieldName with
    | some d => GetFieldResult.ok d
    | none => GetFieldResult.errFieldNotFound

/-- `MetaGroup::removeField`: `-1` when the name is not a member of this
group, else erases it from the set. -/
def removeField (g : MetaGroup) (fieldName : String) : Int × MetaGroup :=
  if !(g.hasField fieldName) then (-1, g)
  else (0, { g with Fields := g.Fields.erase fieldName })

/-- `MetaGroup::getFieldList`: a copy of the member set. -/
def getFieldList (g : MetaGroup) : List String :=
  g.Fields

end MetaGroup

/-! ### The combined process-wide state -/

/-- The three static registries of the translation unit, as one state. -/
structure Registry where
  AllFields : FieldReg
  AllDims : DimReg
  AllGroups : GroupReg
deriving DecidableEq, Repr

/-- Calling `MetaDim::clear()` on the process state. -/
def Registry.clearDims (r : Registry) : Registry :=
  { r with AllDims := MetaDim.clear r.AllDims }

/-- Calling `MetaData::clear()` on the process state. -/
def Registry.clearFields (r : Registry) : Registry :=
  { r with AllFields := MetaData.clear r.AllFields }

/-- A value-initialized record as produced by the bare create, for concrete
instantiations. -/
def mdEmpty : MetaData :=
  { FieldName := "Fld", MetaMap := [], NDims := 0, DimNames := [] }

/-- A concrete process state populated through the create operations: one
dimension `"D"` of length 5, one field `"F"`, one group `"G"`. -/
def regC5 : Registry :=
  { AllFields := (MetaData.create [] "F").2
    AllDims := (MetaDim.create [] "D" 5).2
    AllGroups := (MetaGroup.create [] "G").2 }

/-! ### Bridging lemmas about the operations -/

theorem hasEntry_eq_false_iff (md : MetaData) (name : String) :
    md.hasEntry name = false ↔ mapFind md.MetaMap name = none := by
  simp [MetaData.hasEntry, isSome_false_iff]

theorem dimHas_eq_false_iff (allDims : DimReg) (name : String) :
    MetaDim.has allDims name = false ↔ mapFind allDims name = none := by
  simp [MetaDim.has, isSome_false_iff]

theorem fieldHas_eq_false_iff (af : FieldReg) (name : String) :
    MetaData.has af name = false ↔ mapFind af name = none := by
  simp [MetaData.has, isSome_false_iff]

theorem addEntry_fresh (md : MetaData) (name : String) (v : MetaValue)
    (h : md.hasEntry name = false) :
    md.addEntry name v = (0, { md with MetaMap := mapInsert md.MetaMap name v }) := by
  simp [MetaData.addEntry, h]

theorem addEntry_dup (md : MetaData) (name : String) (v : MetaValue)
    (h : md.hasEntry name = true) :
    md.addEntry name v = (-1, md) := by
  simp [MetaData.addEntry, h]

theorem addEntry_snd_NDims (md : MetaData) (name : String) (v : MetaValue) :
    ((md.addEntry name v).2).NDims = md.NDims := by
  by_cases h : md.hasEntry name <;> simp [MetaData.addEntry, h]

theorem addEntry_snd_DimNames (md : MetaData) (name : String) (v : MetaValue) :
    ((md.addEntry name v).2).DimNames = md.DimNames := by
  by_cases h : md.hasEntry name <;> simp [MetaData.addEntry, h]

theorem getEntryWith_insert {α : Type} (cast : MetaValue → Option α)
    (md : MetaData) (name : String) (v : MetaValue) :
    MetaData.getEntryWith cast { md with MetaMap := mapInsert md.MetaMap name v } name
      = match cast v with
        | some x => GetResult.ok x
        | none => GetResult.throwBadAnyCast := by
  simp [MetaData.getEntryWith, mapFind_mapInsert_self]

theorem readNames_eq_none_iff (l : List String) (n : Nat) :
    MetaData.readNames l n = none ↔ l.length < n := by
  induction n with
  | zero => simp [MetaData.readNames]
  | succ m ih =>
    cases h1 : MetaData.readNames l m with
    | none =>
      have hl : l.length < m := ih.mp h1
      simp only [MetaData.readNames, h1]
      simpa using Nat.lt_succ_of_lt hl
    | some acc =>
      cases h2 : l[m]? with
      | none =>
        have hl : l.length ≤ m := List.getElem?_eq_none_iff.mp h2
        simp [MetaData.readNames, h1, h2, Nat.lt_succ_iff, hl]
      | some s =>
        have hl : m < l.length := (List.getElem?_eq_some_iff.mp h2).1
        have hn : ¬l.length < m + 1 := by omega
        simp [MetaData.readNames, h1, h2, hn]

theorem getDimNames_eq_none_iff (md : MetaData) :
    md.getDimNames = none ↔ 0 < md.NDims ∧ md.DimNames.length < md.NDims.toNat := by
  by_cases h : md.NDims > 0
  · simp [MetaData.getDimNames, h, readNames_eq_none_iff]
  · simp [MetaData.getDimNames, h]

theorem dimCreate_fresh (allDims : DimReg) (name : String) (length : I4)
    (h : mapFind allDims name = none) :
    MetaDim.create allDims name length
      = (some ⟨name, length⟩, mapInsert allDims name ⟨name, length⟩) := by
  simp [MetaDim.create, h]

theorem fieldCreate_dup (af : FieldReg) (name : String)
    (h : MetaData.has af name = true) :
    MetaData.create af name = (none, af) := by
  simp [MetaData.create, h]

theorem fieldCreate_fresh (af : FieldReg) (name : String)
    (h : MetaData.has af name = false) :
    MetaData.create af name
      = (some ⟨name, [], 0, []⟩, mapInsert af name ⟨name, [], 0, []⟩) := by
  simp [MetaData.create, h]

/-! ### The claims -/

/-- C2: for every group and every field name absent from the field registry,
`MetaGroup::addField` reports the field-not-registered error (status `-2`,
nonzero) but still inserts the name into the group's member set, so that
`hasField` returns true afterwards. -/
theorem c2_addField_inserts_despite_error (g : MetaGroup) (af : FieldReg)
    (f : String) (h : MetaData.has af f = false) :
    (g.addField af f).1 = -2 ∧ ((g.addField af f).2.hasField f) = true := by
  constructor
  · simp [MetaGroup.addField, h]
  · simp [MetaGroup.addField, MetaGroup.hasField, setContains_setInsert_self]

/-- Witness for C2 at the empty field registry. -/
theorem c2_addField_inserts_despite_error_witness :
    MetaData.has [] "F" = false ∧
    ((MetaGroup.mk "G" []).addField [] "F").1 = -2 ∧
    (((MetaGroup.mk "G" []).addField [] "F").2.hasField "F") = true := by
  have h := c2_addField_inserts_despite_error (MetaGroup.mk "G" []) [] "F" (by decide)
  exact ⟨by decide, h.1, h.2⟩

/-- C3: re-creating an existing dimension with a different length fails (a
conflict diagnostic and a null result) and leaves the registry unchanged, so
a subsequent `get` still returns the original dimension with its original
length. -/
theorem c3_conflicting_dim_create_rejected (dims : DimReg) (name : String)
    (d : MetaDim) (len2 : I4) (hfind : mapFind dims name = some d)
    (hne : d.Length ≠ len2) :
    MetaDim.create dims name len2 = (none, dims) ∧
    MetaDim.get dims name = some d := by
  constructor
  · simp [MetaDim.create, hfind, hne]
  · simp [MetaDim.get, MetaDim.has, hfind]

/-- Witness for C3: a dimension of length 5 re-created with length 7. -/
theorem c3_conflicting_dim_create_rejected_witness :
    mapFind [("D", MetaDim.mk "D" 5)] "D" = some (MetaDim.mk "D" 5) ∧
    (MetaDim.mk "D" 5).Length ≠ 7 ∧
    MetaDim.create [("D", MetaDim.mk "D" 5)] "D" 7 = (none, [("D", MetaDim.mk "D" 5)]) ∧
    MetaDim.get [("D", MetaDim.mk "D" 5)] "D" = some (MetaDim.mk "D" 5) := by
  have h := c3_conflicting_dim_create_rejected [("D", MetaDim.mk "D" 5)] "D"
    (MetaDim.mk "D" 5) 7 (by decide) (by decide)
  exact ⟨by decide, by decide, h.1, h.2⟩

/-- C4: starting from a registry without the name, two `MetaDim::create`
calls with identical arguments both succeed and return the same dimension
entity (the second returns exactly the entry the first stored, and leaves
the registry untouched), and `getNumDefinedDims` grows by exactly 1 across
the two calls, not 2. -/
theorem c4_idempotent_dim_create (dims : DimReg) (name : String) (len : I4)
    (h : MetaDim.has dims name = false) :
    (MetaDim.create dims name len).1 ≠ none ∧
    (MetaDim.create (MetaDim.create dims name len).2 name len).1
      = (MetaDim.create dims name len).1 ∧
    (MetaDim.create (MetaDim.create dims name len).2 name len).1
      = MetaDim.get (MetaDim.create dims name len).2 name ∧
    (MetaDim.create (MetaDim.create dims name len).2 name len).2
      = (MetaDim.create dims name len).2 ∧
    MetaDim.getNumDefinedDims (MetaDim.create dims name len).2
      = MetaDim.getNumDefinedDims dims + 1 ∧
    MetaDim.getNumDefinedDims (MetaDim.create (MetaDim.create dims name len).2 name len).2
      = MetaDim.getNumDefinedDims dims + 1 := by
  have hfind : mapFind dims name = none := (dimHas_eq_false_iff dims name).mp h
  have hlen := length_mapInsert_fresh dims name (⟨name, len⟩ : MetaDim) hfind
  refine ⟨?_, ?_, ?_, ?_, ?_, ?_⟩ <;>
    simp [MetaDim.create, MetaDim.get, MetaDim.has, hfind, mapFind_mapInsert_self,
      MetaDim.getNumDefinedDims, hlen]

/-- Witness for C4 at the empty dimension registry. -/
theorem c4_idempotent_dim_create_witness :
    MetaDim.has [] "D" = false ∧
    (MetaDim.create ([] : DimReg) "D" 5).1 ≠ none ∧
    (MetaDim.create (MetaDim.create ([] : DimReg) "D" 5).2 "D" 5).1
      = (MetaDim.create ([] : DimReg) "D" 5).1 ∧
    MetaDim.getNumDefinedDims
        (MetaDim.create (MetaDim.create ([] : DimReg) "D" 5).2 "D" 5).2
      = MetaDim.getNumDefinedDims ([] : DimReg) + 1 := by
  have h := c4_idempotent_dim_create [] "D" 5 (by decide)
  exact ⟨by decide, h.1, h.2.1, h.2.2.2.2.2⟩

/-- C5 counterexample: the source defines `clear()` only on `MetaDim` and
`MetaData`; the `MetaGroup` class declares no `clear()` (and no count).
After populating one dimension, one field and one group and invoking every
`clear()` the registries offer, the previously created group `"G"` is still
registered, so no sequence of clear calls makes the Group Registry's `has`
report false — refuting the claim for the group registry. -/
theorem c5_clear_counterexample :
    MetaGroup.has regC5.AllGroups "G" = true ∧
    MetaGroup.has regC5.clearDims.clearFields.AllGroups "G" = true ∧
    MetaDim.has regC5.clearDims.clearFields.AllDims "D" = false ∧
    MetaData.has regC5.clearDims.clearFields.AllFields "F" = false := by
  decide

/-- C5 (amended): `MetaDim::clear()` empties exactly the dimension registry
(`getNumDefinedDims` is 0 and `has` is false for every name afterwards) and
leaves the field and group registries untouched; `MetaData::clear()` empties
exactly the field registry and leaves the dimension and group registries
untouched; the group registry has no clear operation. -/
theorem c5_clear_frame_amended (r : Registry) (n : String) :
    r.clearDims.AllFields = r.AllFields ∧
    r.clearDims.AllGroups = r.AllGroups ∧
    MetaDim.getNumDefinedDims r.clearDims.AllDims = 0 ∧
    MetaDim.has r.clearDims.AllDims n = false ∧
    r.clearFields.AllDims = r.AllDims ∧
    r.clearFields.AllGroups = r.AllGroups ∧
    MetaData.has r.clearFields.AllFields n = false := by
  refine ⟨rfl, rfl, rfl, ?_, rfl, rfl, ?_⟩ <;>
    simp [Registry.clearDims, Registry.clearFields, MetaDim.clear, MetaData.clear,
      MetaDim.has, MetaData.has, mapFind]

/-- C6: creating a field whose name is already registered fails (null
result) in each of the three creation forms, leaves the registry unchanged,
and the original record stays retrievable unchanged through `get`. -/
theorem c6_duplicate_field_create_rejected (af : FieldReg) (name : String)
    (d : MetaData) (desc units std : String) (vmin vmax fv : MetaValue)
    (nd : Int) (dims : List String) (pairs : List (String × MetaValue))
    (hfind : mapFind af name = some d) :
    MetaData.create af name = (none, af) ∧
    MetaData.createFull af name desc units std vmin vmax fv nd dims = (none, af) ∧
    MetaData.createPairs af name pairs = (none, af) ∧
    MetaData.get af name = some d := by
  have hhas : MetaData.has af name = true := by simp [MetaData.has, hfind]
  refine ⟨?_, ?_, ?_, ?_⟩
  · simp [MetaData.create, hhas]
  · simp [MetaData.createFull, MetaData.create, hhas]
  · simp [MetaData.createPairs, MetaData.create, hhas]
  · simp [MetaData.get, MetaData.has, hfind]

/-- Witness for C6 on a registry holding one record named `"F"`. -/
theorem c6_duplicate_field_create_rejected_witness :
    mapFind [("F", mdEmpty)] "F" = some mdEmpty ∧
    MetaData.create [("F", mdEmpty)] "F" = (none, [("F", mdEmpty)]) ∧
    MetaData.createFull [("F", mdEmpty)] "F" "d" "u" "s" (MetaValue.i4 0)
      (MetaValue.i4 0) (MetaValue.i4 0) 0 [] = (none, [("F", mdEmpty)]) ∧
    MetaData.createPairs [("F", mdEmpty)] "F" [] = (none, [("F", mdEmpty)]) ∧
    MetaData.get [("F", mdEmpty)] "F" = some mdEmpty := by
  have h := c6_duplicate_field_create_rejected [("F", mdEmpty)] "F" mdEmpty
    "d" "u" "s" (MetaValue.i4 0) (MetaValue.i4 0) (MetaValue.i4 0) 0 [] [] (by decide)
  exact ⟨by decide, h.1, h.2.1, h.2.2.1, h.2.2.2⟩

/-- C1 counterexample: the claim states that `getEntry` on an existing
entry of a different kind fails with a TypeMismatch signalled through the
return channel, with no exception or abort.  In the source the six
`getEntry` overloads apply `std::any_cast` with no try block, so a kind
mismatch throws `std::bad_any_cast` out of `getEntry` instead of returning;
the return-channel codes only distinguish 0 (found) from `-1` (entry
missing).  Concretely: store `1` as I4 under `"E"`, then read `"E"` as I8 —
the call exits by exception, not through the return channel. -/
theorem c1_mismatch_throws_counterexample :
    ((mdEmpty.addEntry "E" (MetaValue.i4 1)).2.getEntryKind "E" MetaKind.i8).throws
      = true ∧
    ((mdEmpty.addEntry "E" (MetaValue.i4 1)).2.getEntryKind "E" MetaKind.i8)
      ≠ GetResult.errNotFound := by
  decide

/-- C1 (amended): for every record and entry name not already present,
`addEntry(name, v)` succeeds (status 0) and `getEntry(name, sameKind)`
returns a value equal to `v`; `getEntry(name, differentKind)` on the
existing entry fails by throwing `std::bad_any_cast` (it does not return
through the error-code channel), with no implicit widening or narrowing
across the integer or float widths — I4 entries are not readable as I8 and
conversely, nor R4 as R8. -/
theorem c1_entry_roundtrip_exact_kind (md : MetaData) (name : String)
    (v : MetaValue) (h : md.hasEntry name = false) :
    (md.addEntry name v).1 = 0 ∧
    (md.addEntry name v).2.getEntryKind name v.kind = GetResult.ok v ∧
    ∀ k : MetaKind, k ≠ v.kind →
      (md.addEntry name v).2.getEntryKind name k = GetResult.throwBadAnyCast := by
  rw [addEntry_fresh md name v h]
  refine ⟨rfl, ?_, ?_⟩
  · cases v <;>
      simp [MetaData.getEntryKind, MetaData.getEntryI4, MetaData.getEntryI8,
        MetaData.getEntryR4, MetaData.getEntryR8, MetaData.getEntryBool,
        MetaData.getEntryStr, MetaData.getEntryWith, mapFind_mapInsert_self,
        anyCastI4, anyCastI8, anyCastR4, anyCastR8, anyCastBool, anyCastStr,
        GetResult.map, MetaValue.kind]
  · intro k hk
    cases v <;> cases k <;>
      simp_all [MetaData.getEntryKind, MetaData.getEntryI4, MetaData.getEntryI8,
        MetaData.getEntryR4, MetaData.getEntryR8, MetaData.getEntryBool,
        MetaData.getEntryStr, MetaData.getEntryWith, mapFind_mapInsert_self,
        anyCastI4, anyCastI8, anyCastR4, anyCastR8, anyCastBool, anyCastStr,
        GetResult.map, MetaValue.kind]

/-- Witness for C1 (amended) with an I4 entry read back as I4 and as I8. -/
theorem c1_entry_roundtrip_exact_kind_witness :
    mdEmpty.hasEntry "E" = false ∧
    (mdEmpty.addEntry "E" (MetaValue.i4 1)).1 = 0 ∧
    (mdEmpty.addEntry "E" (MetaValue.i4 1)).2.getEntryKind "E" (MetaValue.i4 1).kind
      = GetResult.ok (MetaValue.i4 1) ∧
    (mdEmpty.addEntry "E" (MetaValue.i4 1)).2.getEntryKind "E" MetaKind.i8
      = GetResult.throwBadAnyCast := by
  have h := c1_entry_roundtrip_exact_kind mdEmpty "E" (MetaValue.i4 1) (by decide)
  exact ⟨by decide, h.1, h.2.1, h.2.2 MetaKind.i8 (by decide)⟩

/-- C7: on a record without an `"E"` entry, adding `1` succeeds, a second
`addEntry` of `2` fails with the conflict status `-1` and the record is
unchanged (the stored value stays 1); after `removeEntry` succeeds (0), the
second `addEntry` succeeds and `getEntry` returns 2. -/
theorem c7_duplicate_entry_then_replace (md : MetaData)
    (h : md.hasEntry "E" = false) :
    (md.addEntry "E" (MetaValue.i4 1)).1 = 0 ∧
    ((md.addEntry "E" (MetaValue.i4 1)).2.addEntry "E" (MetaValue.i4 2)).1 = -1 ∧
    ((md.addEntry "E" (MetaValue.i4 1)).2.addEntry "E" (MetaValue.i4 2)).2
      = (md.addEntry "E" (MetaValue.i4 1)).2 ∧
    ((md.addEntry "E" (MetaValue.i4 1)).2.addEntry "E" (MetaValue.i4 2)).2.getEntryI4 "E"
      = GetResult.ok 1 ∧
    ((md.addEntry "E" (MetaValue.i4 1)).2.removeEntry "E").1 = 0 ∧
    (((md.addEntry "E" (MetaValue.i4 1)).2.removeEntry "E").2.addEntry "E"
        (MetaValue.i4 2)).1 = 0 ∧
    (((md.addEntry "E" (MetaValue.i4 1)).2.removeEntry "E").2.addEntry "E"
        (MetaValue.i4 2)).2.getEntryI4 "E" = GetResult.ok 2 := by
  obtain ⟨fn, mm, nd, dn⟩ := md
  have hfind : mapFind mm "E" = none := (hasEntry_eq_false_iff _ "E").mp h
  have hIns : mapFind (mapInsert mm "E" (MetaValue.i4 1)) "E"
      = some (MetaValue.i4 1) := mapFind_mapInsert_self mm "E" _
  have hErase := mapErase_mapInsert_fresh mm "E" (MetaValue.i4 1) hfind
  refine ⟨?_, ?_, ?_, ?_, ?_, ?_, ?_⟩ <;>
    simp [MetaData.addEntry, MetaData.removeEntry, MetaData.hasEntry,
      MetaData.getEntryI4, MetaData.getEntryWith, anyCastI4, hfind, hIns, hErase,
      mapFind_mapInsert_self]

/-- Witness for C7 on the empty record. -/
theorem c7_duplicate_entry_then_replace_witness :
    mdEmpty.hasEntry "E" = false ∧
    (mdEmpty.addEntry "E" (MetaValue.i4 1)).1 = 0 ∧
    ((mdEmpty.addEntry "E" (MetaValue.i4 1)).2.addEntry "E" (MetaValue.i4 2)).1 = -1 ∧
    ((mdEmpty.addEntry "E" (MetaValue.i4 1)).2.addEntry "E" (MetaValue.i4 2)).2.getEntryI4 "E"
      = GetResult.ok 1 ∧
    (((mdEmpty.addEntry "E" (MetaValue.i4 1)).2.removeEntry "E").2.addEntry "E"
        (MetaValue.i4 2)).2.getEntryI4 "E" = GetResult.ok 2 := by
  have h := c7_duplicate_entry_then_replace mdEmpty (by decide)
  exact ⟨by decide, h.1, h.2.1, h.2.2.2.1, h.2.2.2.2.2.2⟩

/-- C8: `MetaGroup::getField` takes its own not-in-group failure exactly
when the name is absent from the group's member set, independent of whether
the field record exists; when the name is a member but the record has been
destroyed from the field registry, the call takes the distinct failure mode
of `MetaData::get` returning null — a defined result, not a crash — even
though `hasField` still reports true (membership is untouched). -/
theorem c8_getField_failure_modes (g : MetaGroup) (af : FieldReg) (f : String) :
    (g.getField af f = GetFieldResult.errNotInGroup ↔ g.hasField f = false) ∧
    (g.hasField f = true → MetaData.has af f = false →
      g.getField af f = GetFieldResult.errFieldNotFound ∧ g.hasField f = true) := by
  constructor
  · cases hb : g.hasField f with
    | false => simp [MetaGroup.getField, hb]
    | true =>
      cases hg : MetaData.get af f with
      | none => simp [MetaGroup.getField, hb, hg]
      | some d => simp [MetaGroup.getField, hb, hg]
  · intro hm hnf
    have hget : MetaData.get af f = none := by simp [MetaData.get, hnf]
    exact ⟨by simp [MetaGroup.getField, hm, hget], hm⟩

/-- Witness for C8: a group holding member `"F"` over an empty field
registry (the record destroyed), and a non-member name `"X"`. -/
theorem c8_getField_failure_modes_witness :
    (MetaGroup.mk "G" ["F"]).hasField "F" = true ∧
    MetaData.has [] "F" = false ∧
    (MetaGroup.mk "G" ["F"]).getField [] "F" = GetFieldResult.errFieldNotFound ∧
    (MetaGroup.mk "G" ["F"]).getField [] "X" = GetFieldResult.errNotInGroup := by
  have h1 := c8_getField_failure_modes (MetaGroup.mk "G" ["F"]) [] "F"
  have h2 := c8_getField_failure_modes (MetaGroup.mk "G" ["F"]) [] "X"
  exact ⟨by decide, by decide, (h1.2 (by decide) (by decide)).1, h2.1.mpr (by decide)⟩

/-- C9: the full-form create stores `NumDims` and the `Dimensions` vector
verbatim, with no check that the vector has `NumDims` elements, and
`getDimNames` then reads `DimNames[0..NDims-1]`: for a record created with
`NumDims` greater than the length of the supplied vector the read is out of
bounds (modelled as `none`), and in general the reads of a record with
`NDims > 0` are in bounds exactly when `DimNames.size() >= NDims`. -/
theorem c9_getDimNames_out_of_bounds (af : FieldReg)
    (name desc units std : String) (vmin vmax fv : MetaValue) (numDims : Int)
    (dims : List String) (hfresh : MetaData.has af name = false)
    (hlen : (dims.length : Int) < numDims) :
    (MetaData.createFull af name desc units std vmin vmax fv numDims dims).1.map
        MetaData.getNumDims = some numDims ∧
    (MetaData.createFull af name desc units std vmin vmax fv numDims dims).1.map
        MetaData.DimNames = some dims ∧
    (MetaData.createFull af name desc units std vmin vmax fv numDims dims).1.map
        MetaData.getDimNames = some none ∧
    ∀ md : MetaData, 0 < md.NDims →
      (md.getDimNames ≠ none ↔ md.NDims.toNat ≤ md.DimNames.length) := by
  have hpos : (0 : Int) < numDims := by omega
  have hlt : dims.length < numDims.toNat := by omega
  refine ⟨?_, ?_, ?_, ?_⟩
  · simp [MetaData.createFull, fieldCreate_fresh af name hfresh,
      addEntry_snd_NDims, MetaData.getNumDims]
  · simp [MetaData.createFull, fieldCreate_fresh af name hfresh,
      addEntry_snd_DimNames]
  · simp [MetaData.createFull, fieldCreate_fresh af name hfresh,
      getDimNames_eq_none_iff, addEntry_snd_NDims, addEntry_snd_DimNames]
    exact ⟨hpos, by omega⟩
  · intro md hmd
    simp [Ne, getDimNames_eq_none_iff, hmd]

/-- Witness for C9: a record created with `NumDims = 2` but a single
dimension name. -/
theorem c9_getDimNames_out_of_bounds_witness :
    MetaData.has [] "F" = false ∧
    ((["DimA"].length : Int) < 2) ∧
    (MetaData.createFull [] "F" "d" "u" "s" (MetaValue.i4 0) (MetaValue.i4 0)
        (MetaValue.i4 0) 2 ["DimA"]).1.map MetaData.getNumDims = some 2 ∧
    (MetaData.createFull [] "F" "d" "u" "s" (MetaValue.i4 0) (MetaValue.i4 0)
        (MetaValue.i4 0) 2 ["DimA"]).1.map MetaData.getDimNames = some none := by
  have h := c9_getDimNames_out_of_bounds [] "F" "d" "u" "s" (MetaValue.i4 0)
    (MetaValue.i4 0) (MetaValue.i4 0) 2 ["DimA"] (by decide) (by decide)
  exact ⟨by decide, by decide, h.1, h.2.2.1⟩

/-- C10: for a name not yet registered, the bare `MetaData::create` returns
a value-initialized record (`std::make_shared<MetaData>()` zero-initializes
the members before the name is set): `getNumDims` is 0, `getDimNames`
produces the empty sequence, and no entry name is present. -/
theorem c10_bare_create_value_init (af : FieldReg) (name e : String)
    (h : MetaData.has af name = false) :
    (MetaData.create af name).1 = some ⟨name, [], 0, []⟩ ∧
    (MetaData.create af name).1.map MetaData.getNumDims = some 0 ∧
    (MetaData.create af name).1.map MetaData.getDimNames = some (some []) ∧
    (MetaData.create af name).1.map (fun d => d.hasEntry e) = some false := by
  rw [fieldCreate_fresh af name h]
  exact ⟨rfl, rfl, rfl, rfl⟩

/-- Witness for C10 at the empty field registry. -/
theorem c10_bare_create_value_init_witness :
    MetaData.has [] "F" = false ∧
    (MetaData.create [] "F").1 = some ⟨"F", [], 0, []⟩ ∧
    (MetaData.create [] "F").1.map MetaData.getNumDims = some 0 ∧
    (MetaData.create [] "F").1.map MetaData.getDimNames = some (some []) ∧
    (MetaData.create [] "F").1.map (fun d => d.hasEntry "Units") = some false := by
  have h := c10_bare_create_value_init [] "F" "Units" (by decide)
  exact ⟨by decide, h.1, h.2.1, h.2.2.1, h.2.2.2⟩

end OmegaMeta
